import Mathlib

/-!
# Verification of the Purim Pictionary room/game engine (`src/server.js`)

This file gives a shallow embedding of the per-room game engine of the
repository's single source file `src/server.js` and proves the frozen claims
about it.

Modelling conventions:
* JS numbers that the program only ever uses as integers (`totalRounds`,
  `timePerTurn`, `timeRemaining`, `roundNumber`, scores, indices) are `ℤ`
  (or `ℕ` for plain counters); the scoring ratio `timeRemaining/timePerTurn`
  is computed in `ℚ`, and `Math.round` / `Math.floor` become exact floors on
  `ℚ` (`jsRound`, `Int.floor`).
* `Math.random()`-driven choices are passed in as explicit oracle arguments:
  an index for word picks (`Math.floor(Math.random()*n)` is modelled as
  `rand % n`, an arbitrary supplied natural reduced into the range `[0,n)`),
  and a stream `ℕ → ℕ` for the Fisher–Yates shuffle.
* JS `Map`s (the `players` and `spectators` maps, which preserve insertion
  order) are association lists with unique keys; `Set`s of strings are
  `Finset String`.
* `setInterval`/`clearInterval` timer handles are modelled by liveness
  booleans `timerOn` / `hintOn` on the room (set when the code calls
  `setInterval`, cleared on `clearInterval`).  The `setTimeout` callbacks of
  `endTurn` and `start_game` are modelled as explicit functions
  (`nextTurnCallback`, and a bare `startTurn` for the unguarded grace-delay
  callback of `start_game`).
* The process-wide `rooms` registry is modelled by the `destroyed` flag of
  `DisconnectResult`: `destroyed = true` corresponds to `rooms.delete(code)`.
* Each `io.to(...)` broadcast pair (room + spectator channel carry the same
  payload) is modelled as one logical `Event` in the emission list.
-/

set_option maxRecDepth 2048

namespace Purim

/-- `Math.round` of JavaScript: round half toward positive infinity. -/
def jsRound (q : ℚ) : ℤ := ⌊q + 1/2⌋

/-- Char-list prefix test (used to model `String.prototype.includes`). -/
def charsLead : List Char → List Char → Bool
  | [], _ => true
  | _ :: _, [] => false
  | a :: as, b :: bs => a = b && charsLead as bs

/-- `hay.includes(needle)` of JavaScript: substring containment. -/
def jsIncludes (hay needle : String) : Bool :=
  (List.range (hay.data.length + 1)).any (fun i => charsLead needle.data (hay.data.drop i))

/-- `String.prototype.toLowerCase` (ASCII, as used by the word list). -/
def jsToLower (s : String) : String := String.mk (s.data.map Char.toLower)

/-- `String.prototype.trim`: strip leading/trailing whitespace. -/
def jsTrim (s : String) : String :=
  String.mk (((s.data.dropWhile Char.isWhitespace).reverse.dropWhile Char.isWhitespace).reverse)

/-- `guess.trim().toLowerCase()` — the normalization of `handleGuess`. -/
def jsNormalize (s : String) : String := jsToLower (jsTrim s)

/-- JS array indexing `l[i]` with a (possibly negative / out-of-range) index:
`undefined` is `none`. -/
def listGetI (l : List String) (i : ℤ) : Option String :=
  if 0 ≤ i then l.get? i.toNat else none

/-- First-match association-list lookup, the model of `Map.prototype.get`. -/
def mapGet {α : Type} : List (String × α) → String → Option α
  | [], _ => none
  | p :: rest, k => if p.1 = k then some p.2 else mapGet rest k

/-- `Map.prototype.set`: replace in place if the key exists, else append
(JS `Map` preserves insertion order). -/
def mapSet {α : Type} (l : List (String × α)) (k : String) (v : α) : List (String × α) :=
  if (mapGet l k).isSome then l.map (fun p => if p.1 = k then (k, v) else p) else l ++ [(k, v)]

/-- The word catalog `WORD_LIST` of `server.js`. -/
def WORD_LIST : List String := [
  "Queen", "Sales Tax", "Megillah", "Throne", "Haman", "Desk", "Coffee",
  "Laptop", "Party", "Delaware", "Hamantaschen", "Real Estate", "Pension",
  "King", "10 Sons of Haman", "Calculator", "Shekels", "US Flag",
  "Foreign Income", "Mordechai", "Water Bottle", "Transfer Pricing",
  "Achashverosh", "Mouse", "Deadline", "Israeli Flag", "Mask", "Grogger",
  "Royal Decree", "Bank Account", "Crown", "Florida", "Beit Hamikdash",
  "Costumes", "California", "Tax Refund", "Headset", "Depreciation",
  "Pennsylvania", "New York", "Olim", "Tax Treaty", "Palace", "Gallows",
  "Pencil", "Keyboard", "Horse", "Perfume", "Tzedaka", "Esther", "Wine"]

/-- A roster entry: `{ name, score }`. -/
structure Player where
  name : String
  score : ℤ
deriving DecidableEq

/-- The values ever assigned to `room.state` by the code.  (The comment in
`createRoom` also lists `between_rounds` and `championship`, but no statement
in `server.js` ever assigns them; they are descriptive only.) -/
inductive RoomState where
  | lobby
  | playing
  | finished
deriving DecidableEq

/-- The room object built by `createRoom`.  The `timer`/`hintInterval`
handles are modelled by the liveness flags `timerOn`/`hintOn`; the opaque
drawing-stroke payloads of `drawingData` are modelled as `Unit`s. -/
structure Room where
  code : String
  hostId : String
  players : List (String × Player)
  state : RoomState
  currentDrawerIndex : ℤ
  currentWord : String
  roundNumber : ℤ
  totalRounds : ℤ
  timePerTurn : ℤ
  timerOn : Bool
  timeRemaining : ℤ
  usedWords : Finset String
  drawingData : List Unit
  correctGuessers : Finset String
  turnActive : Bool
  playerOrder : List String
  isChampionship : Bool
  spectators : List (String × String)
  hintsRevealed : ℕ
  hintOn : Bool
deriving DecidableEq

/-- One logical outbound broadcast (room and spectator channels carrying the
same payload are merged; payload fields not needed by any claim are elided). -/
inductive Event where
  | roomCreated
  | roomJoined
  | playerJoined
  | spectatorJoined
  | joinedAsSpectator
  | errorMessage (msg : String)
  | gameStarted (totalRounds : ℤ)
  | turnStart (drawerId : String) (hint : String) (roundNumber : ℤ) (timeRemaining : ℤ)
  | yourWord (word : String)
  | timerUpdate (timeRemaining : ℤ)
  | hintUpdate (hint : String)
  | correctGuess (playerId : String) (points drawerPts : ℤ)
  | youGuessedCorrectly (word : String)
  | chatMessage (playerId : String) (message : String) (isClose : Bool)
  | turnEnd (word : String) (wasGuessed : Bool) (roundNumber : ℤ)
  | gameOver
  | playerLeft (name : String)
  | spectatorLeft
  | newHost (hostId : String)
deriving DecidableEq

/-- Recognizer for `turn_end` broadcasts. -/
def isTurnEndEvent : Event → Bool
  | .turnEnd _ _ _ => true
  | _ => false

/-- Settings payload of `create_room` (optional JS fields; `none` models an
absent field, and JS falsiness of `0` is handled at use sites). -/
structure CreateSettings where
  totalRounds : Option ℤ
  timePerTurn : Option ℤ
  isChampionship : Option Bool
deriving DecidableEq

/-- Settings payload of `start_game`. -/
structure StartSettings where
  totalRounds : Option ℤ
  timePerTurn : Option ℤ
  isChampionship : Option Bool
deriving DecidableEq

/-- `x || d` for a JS number-valued optional field (`0`, like an absent
field, is falsy). -/
def jsOrInt (o : Option ℤ) (d : ℤ) : ℤ :=
  match o with
  | some v => if v = 0 then d else v
  | none => d

/-- `createRoom(hostId, hostName, settings)`.  The 4-character random room
code is generated by the external trivial utility `generateRoomCode` and is
passed in here; `hostName` is accepted and ignored exactly as in the source. -/
def createRoom (code : String) (hostId : String) (hostName : String)
    (settings : CreateSettings) : Room :=
  let _ := hostName
  { code := code
    hostId := hostId
    players := []
    state := .lobby
    currentDrawerIndex := -1
    currentWord := ""
    roundNumber := 0
    totalRounds := jsOrInt settings.totalRounds 10
    timePerTurn := jsOrInt settings.timePerTurn 40
    timerOn := false
    timeRemaining := 0
    usedWords := ∅
    drawingData := []
    correctGuessers := ∅
    turnActive := false
    playerOrder := []
    isChampionship := settings.isChampionship.getD false
    spectators := []
    hintsRevealed := 0
    hintOn := false }

/-- The `create_room` socket handler: build the room, then
`room.players.set(socket.id, { name, score: 0 })`. -/
def createRoomHandler (code sid name : String) (settings : CreateSettings) : Room :=
  let room := createRoom code sid name settings
  { room with players := mapSet room.players sid { name := name, score := 0 } }

/-- The player path of the `join_room` handler. -/
def joinRoomPlayer (room : Room) (sid name : String) : Room × List Event :=
  if room.state ≠ .lobby then
    (room, [.errorMessage "Game already in progress! You can join as a spectator."])
  else if 10 ≤ room.players.length then
    (room, [.errorMessage "Room is full! (max 10 players)"])
  else
    ({ room with players := mapSet room.players sid { name := name, score := 0 } },
     [.roomJoined, .playerJoined])

/-- The spectator path of the `join_room` handler. -/
def joinRoomSpectator (room : Room) (sid name : String) : Room × List Event :=
  ({ room with spectators := mapSet room.spectators sid name },
   [.joinedAsSpectator, .spectatorJoined])

/-- `getRandomWord(room)`: filter out used words; if none remain, clear the
used set and pick from the full catalog (without recording the pick),
otherwise pick an unused word and record it.  `rand` is the
`Math.floor(Math.random()*n)` oracle, reduced into range by `% n`. -/
def getRandomWord (usedWords : Finset String) (rand : ℕ) : String × Finset String :=
  let available := WORD_LIST.filter (fun w => w ∉ usedWords)
  if available.length = 0 then
    ((WORD_LIST.get? (rand % WORD_LIST.length)).getD "", ∅)
  else
    let word := (available.get? (rand % available.length)).getD ""
    (word, insert word usedWords)

/-- Repeated calls of `getRandomWord` along a list of random indices,
returning the sequence of drawn words (proof scaffolding for the
no-early-repeat property). -/
def runDraws (usedWords : Finset String) : List ℕ → List String
  | [] => []
  | r :: rs =>
    (getRandomWord usedWords r).1 :: runDraws (getRandomWord usedWords r).2 rs

/-- `generateHint(word, revealCount)`: spaces render as a double space,
revealed leading positions as themselves, the rest as `_`; joined with " ". -/
def generateHint (word : String) (revealCount : ℕ) : String :=
  String.intercalate " " (word.data.enum.map (fun p =>
    if p.2 = ' ' then "  " else if p.1 < revealCount then String.singleton p.2 else "_"))

/-- `orderBonus`: `Math.max(0, 1 - (guessOrder - 1) * 0.15)`. -/
def orderBonus (guessOrder : ℕ) : ℚ := max 0 (1 - ((guessOrder : ℚ) - 1) * 0.15)

/-- `guesserPoints`: `Math.round((200 + 300 * timeRatio) * orderBonus)`. -/
def guesserPoints (timeRatio : ℚ) (guessOrder : ℕ) : ℤ :=
  jsRound ((200 + 300 * timeRatio) * orderBonus guessOrder)

/-- `drawerPoints`: `Math.round(50 + 100 * timeRatio)`. -/
def drawerPoints (timeRatio : ℚ) : ℤ := jsRound (50 + 100 * timeRatio)

/-- `word.replace(/ /g, '').length` — word length ignoring spaces. -/
def wordLenNoSpaces (word : String) : ℕ := (word.data.filter (fun c => c ≠ ' ')).length

/-- The `hintTimes` array of `startTurn`: a `Math.floor(timePerTurn*0.5)`
threshold for words longer than 3, plus a `Math.floor(timePerTurn*0.25)`
threshold for words longer than 5. -/
def hintTimes (word : String) (timePerTurn : ℤ) : List ℤ :=
  (if 3 < wordLenNoSpaces word then [⌊(timePerTurn : ℚ) * 0.5⌋] else []) ++
  (if 5 < wordLenNoSpaces word then [⌊(timePerTurn : ℚ) * 0.25⌋] else [])

/-- The `shouldReveal` count of the hint-interval callback:
`hintTimes.filter(t => (timePerTurn - t) <= elapsed).length`. -/
def shouldRevealCount (word : String) (timePerTurn elapsed : ℤ) : ℕ :=
  ((hintTimes word timePerTurn).filter (fun t => timePerTurn - t ≤ elapsed)).length

/-- `endGame(room)`: mark finished and clear both interval timers. -/
def endGame (room : Room) : Room × List Event :=
  ({ room with state := .finished, timerOn := false, hintOn := false }, [.gameOver])

/-- `endTurn(room, wasGuessed)`: deactivate the turn, clear both interval
timers, broadcast `turn_end`. -/
def endTurn (room : Room) (wasGuessed : Bool) : Room × List Event :=
  ({ room with turnActive := false, timerOn := false, hintOn := false },
   [.turnEnd room.currentWord wasGuessed room.roundNumber])

/-- The `allGuessed` computation at the end of `endTurn` (drives only the
3s/5s pacing of the next-turn `setTimeout`). -/
def allGuessedAfter (room : Room) : Bool :=
  let drawerId := listGetI room.playerOrder room.currentDrawerIndex
  let nonDrawerCount := ((room.players.map Prod.fst).filter (fun id => some id ≠ drawerId)).length
  nonDrawerCount ≤ room.correctGuessers.card

/-- The delay (ms) chosen for the next-turn `setTimeout` in `endTurn`. -/
def endTurnDelay (room : Room) (wasGuessed : Bool) : ℕ :=
  if allGuessedAfter room || !wasGuessed then 3000 else 5000

/-- Swap two positions of a list (helper for the Fisher–Yates loop). -/
def listSwap (l : List String) (i j : ℕ) : List String :=
  match l.get? i, l.get? j with
  | some a, some b => (l.set i b).set j a
  | _, _ => l

/-- The Fisher–Yates loop of `start_game`, counting `i` down; `rand i` models
the draw `Math.floor(Math.random() * (i + 1))`, reduced into range by `%`. -/
def fyLoop (rand : ℕ → ℕ) : List String → ℕ → List String
  | l, 0 => l
  | l, i + 1 => fyLoop rand (listSwap l (i + 1) (rand (i + 1) % (i + 2))) i

/-- The in-place shuffle of `playerOrder` in the `start_game` handler. -/
def fisherYates (l : List String) (rand : ℕ → ℕ) : List String :=
  match l.length with
  | 0 => l
  | n + 1 => fyLoop rand l n

/-- The `totalRounds` clause of the `start_game` settings block: a supplied
*truthy* value is parsed and clamped to `[3,30]`; a falsy (`0`/absent) value
leaves the room's field untouched. -/
def applyTotalRounds (room : Room) : Option ℤ → Room
  | some v => if v ≠ 0 then { room with totalRounds := min (max v 3) 30 } else room
  | none => room

/-- The `timePerTurn` clause of the settings block. -/
def applyTimePerTurn (room : Room) : Option ℤ → Room
  | some v => if v ≠ 0 then { room with timePerTurn := min (max v 15) 90 } else room
  | none => room

/-- The `isChampionship` clause of the settings block
(`settings.isChampionship !== undefined`). -/
def applyChampionship (room : Room) : Option Bool → Room
  | some b => { room with isChampionship := b }
  | none => room

/-- The settings block of the `start_game` handler (`if (settings) { ... }`):
apply the three clauses in source order. -/
def applySettings : Room → Option StartSettings → Room
  | room, none => room
  | room, some s =>
    applyChampionship (applyTimePerTurn (applyTotalRounds room s.totalRounds) s.timePerTurn)
      s.isChampionship

/-- The `start_game` handler (up to the grace-delay `setTimeout`, whose body
is the unguarded `startTurn` call): silently ignore non-hosts, error below 2
players, apply clamped settings, enter `playing`, shuffle the order and reset
the turn counters. -/
def startGame (room : Room) (sid : String) (settings : Option StartSettings)
    (rand : ℕ → ℕ) : Room × List Event :=
  if sid ≠ room.hostId then (room, [])
  else if room.players.length < 2 then
    (room, [.errorMessage "Need at least 2 players to start!"])
  else
    let room := applySettings room settings
    let room := { room with
      state := .playing
      playerOrder := fisherYates (room.players.map Prod.fst) rand
      currentDrawerIndex := -1
      roundNumber := 0 }
    (room, [.gameStarted room.totalRounds])

/-- `startTurn(room)`, with explicit fuel for the skip-disconnected-drawer
recursion (the recursion increments `roundNumber` each time, so
`(totalRounds - roundNumber).toNat + 1` fuel is always enough; see
`startTurn`).  `wordRand` is the random index consumed by `getRandomWord`. -/
def startTurnFuel (wordRand : ℕ) : ℕ → Room → Room × List Event
  | 0, room => (room, [])
  | fuel + 1, room =>
    let idx := room.currentDrawerIndex + 1
    let idx := if (room.playerOrder.length : ℤ) ≤ idx then 0 else idx
    let room := { room with currentDrawerIndex := idx, roundNumber := room.roundNumber + 1 }
    if room.totalRounds < room.roundNumber then endGame room
    else
      match listGetI room.playerOrder room.currentDrawerIndex with
      | none =>
        if room.roundNumber ≤ room.totalRounds then startTurnFuel wordRand fuel room
        else (room, [])
      | some drawerId =>
        match mapGet room.players drawerId with
        | none =>
          if room.roundNumber ≤ room.totalRounds then startTurnFuel wordRand fuel room
          else (room, [])
        | some _drawer =>
          let pick := getRandomWord room.usedWords wordRand
          let room := { room with
            currentWord := pick.1
            usedWords := pick.2
            drawingData := []
            correctGuessers := ∅
            turnActive := true
            timeRemaining := room.timePerTurn
            hintsRevealed := 0
            state := .playing
            timerOn := true
            hintOn := true }
          (room, [.turnStart drawerId (generateHint room.currentWord 0) room.roundNumber
                    room.timeRemaining,
                  .yourWord room.currentWord])

/-- `startTurn(room)` with enough fuel for its bounded recursion. -/
def startTurn (room : Room) (wordRand : ℕ) : Room × List Event :=
  startTurnFuel wordRand ((room.totalRounds - room.roundNumber).toNat + 1) room

/-- The body of the next-turn `setTimeout` scheduled by `endTurn`: start the
next turn unless the room is `finished` or back in `lobby`. -/
def nextTurnCallback (room : Room) (wordRand : ℕ) : Room × List Event :=
  if room.state ≠ .finished ∧ room.state ≠ .lobby then startTurn room wordRand
  else (room, [])

/-- The body of the 1-second countdown `setInterval` of `startTurn`:
decrement and broadcast `timeRemaining`, ending the turn as not-guessed when
it reaches 0. -/
def timerTick (room : Room) : Room × List Event :=
  let r := { room with timeRemaining := room.timeRemaining - 1 }
  if r.timeRemaining ≤ 0 then
    ((endTurn r false).1, [.timerUpdate r.timeRemaining] ++ (endTurn r false).2)
  else (r, [.timerUpdate r.timeRemaining])

/-- `n` consecutive countdown ticks. -/
def ticks : Room → ℕ → Room
  | r, 0 => r
  | r, n + 1 => ticks (timerTick r).1 n

/-- Add `pts` to the score of the entry with key `pid` (the in-place
`player.score += pts` mutation on a `Map` entry). -/
def addScore (players : List (String × Player)) (pid : String) (pts : ℤ) :
    List (String × Player) :=
  players.map (fun p => if p.1 = pid then (p.1, { p.2 with score := p.2.score + pts }) else p)

/-- The `timeRatio` of the scoring block: `room.timeRemaining / room.timePerTurn`. -/
def roomTimeRatio (room : Room) : ℚ := (room.timeRemaining : ℚ) / (room.timePerTurn : ℚ)

/-- The state mutation of the correct-guess path of `handleGuess`: record the
guesser, add the guesser points to their score and (if the drawer is still a
player) the drawer points to the drawer's score. -/
def correctGuessUpdate (room : Room) (playerId : String) : Room :=
  let drawerId := listGetI room.playerOrder room.currentDrawerIndex
  let correctGuessers := insert playerId room.correctGuessers
  let gPoints := guesserPoints (roomTimeRatio room) correctGuessers.card
  let dPoints := drawerPoints (roomTimeRatio room)
  let players1 := addScore room.players playerId gPoints
  let players2 := match drawerId with
    | some d => if (mapGet room.players d).isSome then addScore players1 d dPoints
                else players1
    | none => players1
  { room with correctGuessers := correctGuessers, players := players2 }

/-- The `nonDrawerCount` of the full-success check. -/
def nonDrawerCount (room : Room) : ℕ :=
  ((room.players.map Prod.fst).filter
    (fun id => some id ≠ listGetI room.playerOrder room.currentDrawerIndex)).length

/-- `handleGuess(room, playerId, guess)`. -/
def handleGuess (room : Room) (playerId : String) (guess : String) : Room × List Event :=
  if room.turnActive = false then (room, [])
  else
    let drawerId := listGetI room.playerOrder room.currentDrawerIndex
    if drawerId = some playerId then (room, [])
    else if playerId ∈ room.correctGuessers then (room, [])
    else
      match mapGet room.players playerId with
      | none => (room, [])
      | some _player =>
        let normalizedGuess := jsNormalize guess
        let normalizedWord := jsNormalize room.currentWord
        if normalizedGuess = normalizedWord then
          let room1 := correctGuessUpdate room playerId
          let evs := [Event.correctGuess playerId
                        (guesserPoints (roomTimeRatio room) room1.correctGuessers.card)
                        (drawerPoints (roomTimeRatio room)),
                      Event.youGuessedCorrectly room.currentWord]
          if nonDrawerCount room1 ≤ room1.correctGuessers.card then
            ((endTurn room1 true).1, evs ++ (endTurn room1 true).2)
          else (room1, evs)
        else
          let isClose := (jsIncludes normalizedWord normalizedGuess &&
                          decide (3 ≤ normalizedGuess.length)) ||
                         jsIncludes normalizedGuess normalizedWord
          (room, [Event.chatMessage playerId guess
                    (isClose && decide (normalizedGuess ≠ normalizedWord))])

/-- Fold a list of `(playerId, guess)` events through `handleGuess`. -/
def applyGuesses (room : Room) : List (String × String) → Room
  | [] => room
  | (pid, g) :: rest => applyGuesses (handleGuess room pid g).1 rest

/-- Result of the `disconnect` handler: the final room object, whether the
room was removed from the process-wide registry (`rooms.delete`), and the
emitted broadcasts. -/
structure DisconnectResult where
  room : Room
  destroyed : Bool
  events : List Event
deriving DecidableEq

/-- The removal step of the `disconnect` handler: `players.delete(socket.id)`
and `playerOrder = playerOrder.filter(id => id !== socket.id)`. -/
def removePlayer (room : Room) (sid : String) : Room :=
  { room with
    players := room.players.filter (fun p => p.1 ≠ sid)
    playerOrder := room.playerOrder.filter (fun id => id ≠ sid) }

/-- The removal step for a departing spectator. -/
def removeSpectator (room : Room) (sid : String) : Room :=
  { room with spectators := room.spectators.filter (fun p => p.1 ≠ sid) }

/-- The `clearInterval` pair run just before `rooms.delete`. -/
def destroyTimers (room : Room) : Room :=
  { room with timerOn := false, hintOn := false }

/-- Host migration: `room.hostId = room.players.keys().next().value`. -/
def migrateHost (room : Room) : Room :=
  { room with hostId := ((room.players.head?).map Prod.fst).getD room.hostId }

/-- The `disconnect` handler.  Note the source order: the departing id is
deleted from `players` and filtered out of `playerOrder` *before* the
drawer-left check compares `playerOrder[currentDrawerIndex]` to it. -/
def handleDisconnect (room : Room) (sid : String) (isSpectator : Bool) : DisconnectResult :=
  if isSpectator then
    { room := removeSpectator room sid
      destroyed := false
      events := [.spectatorLeft] }
  else
    match mapGet room.players sid with
    | none => { room := room, destroyed := false, events := [] }
    | some player =>
      let r1 := removePlayer room sid
      let step2 :=
        if r1.turnActive = true ∧ listGetI r1.playerOrder r1.currentDrawerIndex = some sid
        then endTurn r1 false else (r1, [])
      let step3 :=
        if step2.1.state = .playing ∧ step2.1.players.length < 2
        then ((endGame step2.1).1, step2.2 ++ (endGame step2.1).2) else step2
      let destroyedB := step3.1.players.length = 0 ∧ step3.1.spectators.length = 0
      let r4 := if destroyedB then destroyTimers step3.1 else step3.1
      let step5 :=
        if sid = r4.hostId ∧ 0 < r4.players.length then
          (migrateHost r4, step3.2 ++ [.newHost (migrateHost r4).hostId])
        else (r4, step3.2)
      { room := step5.1
        destroyed := decide destroyedB
        events := [.playerLeft player.name] ++ step5.2 }

/-! ## Helper lemmas -/

/-- After the departing id is filtered out of `playerOrder`, no index of the
filtered array can still yield that id. -/
theorem listGetI_filter_ne (l : List String) (sid : String) (i : ℤ) :
    listGetI (l.filter (fun id => id ≠ sid)) i ≠ some sid := by
  unfold listGetI
  split
  · intro h
    have hmem := List.get?_mem h
    have := (List.mem_filter.mp hmem).2
    simp at this
  · simp

@[simp] theorem endGame_turnActive (r : Room) : (endGame r).1.turnActive = r.turnActive := rfl

@[simp] theorem endGame_players (r : Room) : (endGame r).1.players = r.players := rfl

@[simp] theorem endGame_spectators (r : Room) : (endGame r).1.spectators = r.spectators := rfl

@[simp] theorem endGame_state (r : Room) : (endGame r).1.state = .finished := rfl

@[simp] theorem endGame_hostId (r : Room) : (endGame r).1.hostId = r.hostId := rfl

@[simp] theorem endGame_events (r : Room) : (endGame r).2 = [.gameOver] := rfl

@[simp] theorem endTurn_players (r : Room) (b : Bool) : (endTurn r b).1.players = r.players := rfl

@[simp] theorem endTurn_spectators (r : Room) (b : Bool) :
    (endTurn r b).1.spectators = r.spectators := rfl

@[simp] theorem endTurn_state (r : Room) (b : Bool) : (endTurn r b).1.state = r.state := rfl

@[simp] theorem endTurn_hostId (r : Room) (b : Bool) : (endTurn r b).1.hostId = r.hostId := rfl

@[simp] theorem endTurn_turnActive (r : Room) (b : Bool) :
    (endTurn r b).1.turnActive = false := rfl

@[simp] theorem endTurn_events (r : Room) (b : Bool) :
    (endTurn r b).2 = [.turnEnd r.currentWord b r.roundNumber] := rfl

@[simp] theorem removePlayer_players (r : Room) (sid : String) :
    (removePlayer r sid).players = r.players.filter (fun p => p.1 ≠ sid) := rfl

@[simp] theorem removePlayer_playerOrder (r : Room) (sid : String) :
    (removePlayer r sid).playerOrder = r.playerOrder.filter (fun id => id ≠ sid) := rfl

@[simp] theorem removePlayer_turnActive (r : Room) (sid : String) :
    (removePlayer r sid).turnActive = r.turnActive := rfl

@[simp] theorem removePlayer_state (r : Room) (sid : String) :
    (removePlayer r sid).state = r.state := rfl

@[simp] theorem removePlayer_spectators (r : Room) (sid : String) :
    (removePlayer r sid).spectators = r.spectators := rfl

@[simp] theorem removePlayer_currentDrawerIndex (r : Room) (sid : String) :
    (removePlayer r sid).currentDrawerIndex = r.currentDrawerIndex := rfl

@[simp] theorem removePlayer_hostId (r : Room) (sid : String) :
    (removePlayer r sid).hostId = r.hostId := rfl

@[simp] theorem removePlayer_correctGuessers (r : Room) (sid : String) :
    (removePlayer r sid).correctGuessers = r.correctGuessers := rfl

@[simp] theorem removeSpectator_players (r : Room) (sid : String) :
    (removeSpectator r sid).players = r.players := rfl

@[simp] theorem removeSpectator_spectators (r : Room) (sid : String) :
    (removeSpectator r sid).spectators = r.spectators.filter (fun p => p.1 ≠ sid) := rfl

@[simp] theorem destroyTimers_players (r : Room) : (destroyTimers r).players = r.players := rfl

@[simp] theorem destroyTimers_spectators (r : Room) :
    (destroyTimers r).spectators = r.spectators := rfl

@[simp] theorem destroyTimers_state (r : Room) : (destroyTimers r).state = r.state := rfl

@[simp] theorem destroyTimers_turnActive (r : Room) :
    (destroyTimers r).turnActive = r.turnActive := rfl

@[simp] theorem destroyTimers_hostId (r : Room) : (destroyTimers r).hostId = r.hostId := rfl

@[simp] theorem destroyTimers_timerOn (r : Room) : (destroyTimers r).timerOn = false := rfl

@[simp] theorem destroyTimers_hintOn (r : Room) : (destroyTimers r).hintOn = false := rfl

@[simp] theorem destroyTimers_correctGuessers (r : Room) :
    (destroyTimers r).correctGuessers = r.correctGuessers := rfl

@[simp] theorem migrateHost_players (r : Room) : (migrateHost r).players = r.players := rfl

@[simp] theorem migrateHost_spectators (r : Room) :
    (migrateHost r).spectators = r.spectators := rfl

@[simp] theorem migrateHost_state (r : Room) : (migrateHost r).state = r.state := rfl

@[simp] theorem migrateHost_turnActive (r : Room) :
    (migrateHost r).turnActive = r.turnActive := rfl

@[simp] theorem migrateHost_timerOn (r : Room) : (migrateHost r).timerOn = r.timerOn := rfl

@[simp] theorem migrateHost_hintOn (r : Room) : (migrateHost r).hintOn = r.hintOn := rfl

@[simp] theorem migrateHost_correctGuessers (r : Room) :
    (migrateHost r).correctGuessers = r.correctGuessers := rfl

@[simp] theorem migrateHost_currentDrawerIndex (r : Room) :
    (migrateHost r).currentDrawerIndex = r.currentDrawerIndex := rfl

@[simp] theorem migrateHost_playerOrder (r : Room) :
    (migrateHost r).playerOrder = r.playerOrder := rfl

@[simp] theorem destroyTimers_playerOrder (r : Room) :
    (destroyTimers r).playerOrder = r.playerOrder := rfl

@[simp] theorem destroyTimers_currentDrawerIndex (r : Room) :
    (destroyTimers r).currentDrawerIndex = r.currentDrawerIndex := rfl

@[simp] theorem endGame_playerOrder (r : Room) : (endGame r).1.playerOrder = r.playerOrder := rfl

@[simp] theorem endGame_currentDrawerIndex (r : Room) :
    (endGame r).1.currentDrawerIndex = r.currentDrawerIndex := rfl

@[simp] theorem endGame_correctGuessers (r : Room) :
    (endGame r).1.correctGuessers = r.correctGuessers := rfl

@[simp] theorem endTurn_playerOrder (r : Room) (b : Bool) :
    (endTurn r b).1.playerOrder = r.playerOrder := rfl

@[simp] theorem endTurn_currentDrawerIndex (r : Room) (b : Bool) :
    (endTurn r b).1.currentDrawerIndex = r.currentDrawerIndex := rfl

@[simp] theorem endTurn_correctGuessers (r : Room) (b : Bool) :
    (endTurn r b).1.correctGuessers = r.correctGuessers := rfl

/-! ## C1 — drawer disconnect is supposed to end the turn, but never does

The handler filters the departing id out of `playerOrder` (line 499) before
the drawer-left check (line 507) compares `playerOrder[currentDrawerIndex]`
to `socket.id`, so the comparison can never succeed and `endTurn` is never
called from the disconnect path.  This contradicts both the spec and the
code's own comment `// If current drawer left, end turn`. -/

/-- C1 (code bug): if the current drawer of a room with an active turn
disconnects, the handler leaves `turnActive = true` and emits no `turn_end`
broadcast — the claimed `endTurn(room, false)` call is unreachable. -/
theorem drawer_disconnect_leaves_turn_active (room : Room) (sid : String)
    (hp : (mapGet room.players sid).isSome = true)
    (ht : room.turnActive = true)
    (_hd : listGetI room.playerOrder room.currentDrawerIndex = some sid) :
    (handleDisconnect room sid false).room.turnActive = true ∧
    (handleDisconnect room sid false).events.all (fun e => !isTurnEndEvent e) = true := by
  obtain ⟨p, hp'⟩ := Option.isSome_iff_exists.mp hp
  simp only [handleDisconnect, hp', Bool.false_eq_true, if_false, removePlayer_turnActive,
    removePlayer_playerOrder, removePlayer_currentDrawerIndex, listGetI_filter_ne,
    and_false, ite_false]
  split <;> split <;> split <;> exact ⟨by simp [ht], by simp [isTurnEndEvent]⟩

/-- A concrete two-player room mid-turn, built through the actual handlers:
"A" creates, "B" joins, the game starts (shuffle oracle all-0 puts "B" first
in `playerOrder`), and the first turn starts with "B" as drawer. -/
def roomC1 : Room :=
  let a := createRoomHandler "ZZZZ" "A" "Ann" ⟨none, none, none⟩
  let b := (joinRoomPlayer a "B" "Ben").1
  let g := (startGame b "A" none (fun _ => 0)).1
  (startTurn g 0).1

/-- Witness for C1: in `roomC1` the active drawer "B" disconnects, and the
turn stays active with no `turn_end` broadcast. -/
theorem drawer_disconnect_leaves_turn_active_witness :
    (mapGet roomC1.players "B").isSome = true ∧
    roomC1.turnActive = true ∧
    listGetI roomC1.playerOrder roomC1.currentDrawerIndex = some "B" ∧
    (handleDisconnect roomC1 "B" false).room.turnActive = true ∧
    (handleDisconnect roomC1 "B" false).events.all (fun e => !isTurnEndEvent e) = true := by
  have h := drawer_disconnect_leaves_turn_active roomC1 "B" (by decide) (by decide) (by decide)
  exact ⟨by decide, by decide, by decide, h.1, h.2⟩

/-! ## C3 — destruction of an emptied room

The empty-room check (`players.size === 0 && spectators.size === 0`) lives
only in the *player* branch of the disconnect handler; the spectator branch
returns right after updating the spectator list.  So a player disconnect
that empties the room does destroy it, but a spectator disconnect never
does — the registry can retain a room with no players and no spectators. -/

/-- C3 (amended): for every *player* disconnect, if the room has zero
players and zero spectators after the removal, the room is destroyed in the
same step: both interval timers are cleared and the code is removed from the
registry (`destroyed = true`). -/
theorem empty_room_destroyed_on_player_disconnect (room : Room) (sid : String)
    (hp : (mapGet room.players sid).isSome = true)
    (hempty : room.players.filter (fun p => p.1 ≠ sid) = [])
    (hspec : room.spectators = []) :
    (handleDisconnect room sid false).destroyed = true ∧
    (handleDisconnect room sid false).room.timerOn = false ∧
    (handleDisconnect room sid false).room.hintOn = false := by
  obtain ⟨p, hp'⟩ := Option.isSome_iff_exists.mp hp
  have h0 : (removePlayer room sid).players = [] := by
    rw [removePlayer_players]; exact hempty
  have h0s : (removePlayer room sid).spectators = [] := by
    rw [removePlayer_spectators]; exact hspec
  simp only [handleDisconnect, hp', Bool.false_eq_true, if_false, removePlayer_turnActive,
    removePlayer_playerOrder, removePlayer_currentDrawerIndex, listGetI_filter_ne,
    and_false, ite_false]
  split <;>
    simp only [h0, h0s, endGame_players, endGame_spectators, List.length_nil, lt_irrefl,
      and_false, and_self, ite_true, ite_false, decide_True, destroyTimers_players,
      destroyTimers_timerOn, destroyTimers_hintOn, List.length_nil]

/-- The room of the C3 counterexample: "H" creates it, spectator "S" joins. -/
def roomC3 : Room :=
  (joinRoomSpectator (createRoomHandler "ZZZZ" "H" "Hope" ⟨none, none, none⟩) "S" "Sam").1

/-- Counterexample to C3 as stated: after the last player "H" leaves (room
kept alive by spectator "S"), the spectator's own disconnect leaves the room
with zero players and zero spectators, yet it is *not* destroyed. -/
theorem spectator_disconnect_retains_empty_room :
    (handleDisconnect roomC3 "H" false).destroyed = false ∧
    (handleDisconnect (handleDisconnect roomC3 "H" false).room "S" true).room.players.length = 0 ∧
    (handleDisconnect (handleDisconnect roomC3 "H" false).room "S" true).room.spectators.length
      = 0 ∧
    (handleDisconnect (handleDisconnect roomC3 "H" false).room "S" true).destroyed = false := by
  decide

/-- A one-player room for the C3 witness. -/
def roomC3w : Room := createRoomHandler "ZZZZ" "H" "Hope" ⟨none, none, none⟩

/-- Witness for the amended C3: the sole player of `roomC3w` disconnects and
the room is destroyed with its timers cleared. -/
theorem empty_room_destroyed_on_player_disconnect_witness :
    (handleDisconnect roomC3w "H" false).destroyed = true ∧
    (handleDisconnect roomC3w "H" false).room.timerOn = false ∧
    (handleDisconnect roomC3w "H" false).room.hintOn = false := by
  have h := empty_room_destroyed_on_player_disconnect roomC3w "H" (by decide) (by decide)
    (by decide)
  exact h

/-! ## C4 — settings bounds after `start_game`

`createRoom` stores unclamped creation settings (`settings.totalRounds || 10`)
and the `start_game` handler clamps only values actually supplied (and
truthy) in the `start_game` request, so a room started without request
settings keeps whatever was supplied at creation. -/

@[simp] theorem applyChampionship_totalRounds (r : Room) (o : Option Bool) :
    (applyChampionship r o).totalRounds = r.totalRounds := by
  cases o <;> rfl

@[simp] theorem applyChampionship_timePerTurn (r : Room) (o : Option Bool) :
    (applyChampionship r o).timePerTurn = r.timePerTurn := by
  cases o <;> rfl

@[simp] theorem applyTimePerTurn_totalRounds (r : Room) (o : Option ℤ) :
    (applyTimePerTurn r o).totalRounds = r.totalRounds := by
  rcases o with _ | v
  · rfl
  · simp only [applyTimePerTurn]; split <;> rfl

theorem applyTotalRounds_some (r : Room) (v : ℤ) (hv : v ≠ 0) :
    (applyTotalRounds r (some v)).totalRounds = min (max v 3) 30 := by
  simp only [applyTotalRounds]
  rw [if_pos hv]

theorem applyTimePerTurn_some (r : Room) (v : ℤ) (hv : v ≠ 0) :
    (applyTimePerTurn r (some v)).timePerTurn = min (max v 15) 90 := by
  simp only [applyTimePerTurn]
  rw [if_pos hv]

/-- C4 (amended): a successful `start_game` (requester is host, ≥2 players)
yields `totalRounds ∈ [3,30]` and `timePerTurn ∈ [15,90]` *provided the
request itself supplies truthy (nonzero) values for both settings*; settings
absent from the request keep the (unclamped) creation-time values. -/
theorem start_game_supplied_settings_clamped (room : Room) (sid : String)
    (st : StartSettings) (a b : ℤ) (rand : ℕ → ℕ)
    (hhost : sid = room.hostId)
    (hcount : 2 ≤ room.players.length)
    (ha : st.totalRounds = some a) (ha0 : a ≠ 0)
    (hb : st.timePerTurn = some b) (hb0 : b ≠ 0) :
    (startGame room sid (some st) rand).1.state = .playing ∧
    3 ≤ (startGame room sid (some st) rand).1.totalRounds ∧
    (startGame room sid (some st) rand).1.totalRounds ≤ 30 ∧
    15 ≤ (startGame room sid (some st) rand).1.timePerTurn ∧
    (startGame room sid (some st) rand).1.timePerTurn ≤ 90 := by
  simp only [startGame, hhost, ne_eq, not_true_eq_false, if_false, ite_not]
  rw [if_neg (by omega)]
  have h1 : (applySettings room (some st)).totalRounds = min (max a 3) 30 := by
    simp only [applySettings, ha, applyChampionship_totalRounds, applyTimePerTurn_totalRounds]
    exact applyTotalRounds_some room a ha0
  have h2 : (applySettings room (some st)).timePerTurn = min (max b 15) 90 := by
    simp only [applySettings, hb, applyChampionship_timePerTurn]
    exact applyTimePerTurn_some _ b hb0
  refine ⟨rfl, ?_, ?_, ?_, ?_⟩ <;> simp only [h1, h2] <;> omega

/-- A lobby created with out-of-range `totalRounds = 100` and a second
player joined — the state the C4 counterexample starts from. -/
def roomC4 : Room :=
  (joinRoomPlayer (createRoomHandler "ZZZZ" "H" "Hope" ⟨some 100, none, none⟩) "B" "Ben").1

/-- Counterexample to C4 as stated: `start_game` without settings completes
the `lobby→playing` transition but keeps the unclamped creation-time
`totalRounds = 100 ∉ [3,30]`. -/
theorem start_game_without_settings_unclamped :
    (startGame roomC4 "H" none (fun _ => 0)).1.state = .playing ∧
    (startGame roomC4 "H" none (fun _ => 0)).1.totalRounds = 100 ∧
    ¬ (startGame roomC4 "H" none (fun _ => 0)).1.totalRounds ≤ 30 := by
  decide

/-- Witness for the amended C4: starting `roomC4` with supplied settings
`totalRounds = 100`, `timePerTurn = 200` lands in the clamped ranges. -/
theorem start_game_supplied_settings_clamped_witness :
    (startGame roomC4 "H" (some ⟨some 100, some 200, none⟩) (fun _ => 0)).1.state
      = .playing ∧
    3 ≤ (startGame roomC4 "H" (some ⟨some 100, some 200, none⟩) (fun _ => 0)).1.totalRounds ∧
    (startGame roomC4 "H" (some ⟨some 100, some 200, none⟩) (fun _ => 0)).1.totalRounds ≤ 30 ∧
    15 ≤ (startGame roomC4 "H" (some ⟨some 100, some 200, none⟩) (fun _ => 0)).1.timePerTurn ∧
    (startGame roomC4 "H" (some ⟨some 100, some 200, none⟩) (fun _ => 0)).1.timePerTurn ≤ 90 :=
  start_game_supplied_settings_clamped roomC4 "H" ⟨some 100, some 200, none⟩ 100 200
    (fun _ => 0) (by decide) (by decide) rfl (by decide) rfl (by decide)

/-! ## C9 — dropping below 2 players mid-game

A player disconnect during `playing` that leaves fewer than 2 players does
finish the room in the same step, and the next-turn callback scheduled by
`endTurn` is guarded by `room.state !== 'finished'`.  But the first-turn
grace callback scheduled by `start_game` (`setTimeout(() => startTurn(room),
2000)`) carries no such guard, so a turn can still start after the room has
finished. -/

/-- C9 (amended): (a) if a player disconnect happens while the room is
`playing` and leaves fewer than 2 players, the room is `finished` in that
same step; (b) the next-turn callback scheduled by `endTurn` does nothing on
a `finished` room.  (The unguarded first-turn callback of `start_game` is
*not* covered: see the counterexample.) -/
theorem below_two_finishes_and_next_turn_callback_guarded :
    (∀ (room : Room) (sid : String),
      (mapGet room.players sid).isSome = true →
      room.state = .playing →
      (room.players.filter (fun p => p.1 ≠ sid)).length < 2 →
      (handleDisconnect room sid false).room.state = .finished) ∧
    (∀ (room : Room) (wordRand : ℕ), room.state = .finished →
      nextTurnCallback room wordRand = (room, [])) := by
  constructor
  · intro room sid hp hstate hlt
    obtain ⟨p, hp'⟩ := Option.isSome_iff_exists.mp hp
    simp only [handleDisconnect, hp', Bool.false_eq_true, if_false, removePlayer_turnActive,
      removePlayer_playerOrder, removePlayer_currentDrawerIndex, listGetI_filter_ne,
      and_false, ite_false]
    have hc : ((removePlayer room sid).state = RoomState.playing ∧
        (removePlayer room sid).players.length < 2) = True :=
      eq_true ⟨by rw [removePlayer_state]; exact hstate,
               by rw [removePlayer_players]; exact hlt⟩
    simp only [hc, if_true, ite_true]
    split <;> split <;> simp
  · intro room wordRand h
    simp only [nextTurnCallback, h]
    simp

/-- A two-player room that has just completed `start_game` (still inside the
2-second grace delay, so no turn has started yet). -/
def roomC9 : Room :=
  (startGame
    ((joinRoomPlayer (createRoomHandler "ZZZZ" "H" "Hope" ⟨none, none, none⟩) "B" "Ben").1)
    "H" none (fun _ => 0)).1

/-- Counterexample to C9 as stated: "B" disconnects during the grace delay,
finishing the room — but when the pending unguarded first-turn callback
fires, `startTurn` runs anyway and a new turn starts (`turnActive = true`,
state back to `playing`) after the room was `finished`. -/
theorem grace_callback_starts_turn_after_finished :
    roomC9.state = .playing ∧
    (handleDisconnect roomC9 "B" false).room.state = .finished ∧
    (startTurn (handleDisconnect roomC9 "B" false).room 0).1.state = .playing ∧
    (startTurn (handleDisconnect roomC9 "B" false).room 0).1.turnActive = true := by
  decide

/-- Witness for the amended C9 at the concrete room `roomC9`. -/
theorem below_two_finishes_and_next_turn_callback_guarded_witness :
    (handleDisconnect roomC9 "B" false).room.state = .finished ∧
    nextTurnCallback (handleDisconnect roomC9 "B" false).room 0
      = ((handleDisconnect roomC9 "B" false).room, []) := by
  have hfin := below_two_finishes_and_next_turn_callback_guarded.1 roomC9 "B"
    (by decide) (by decide) (by decide)
  exact ⟨hfin, below_two_finishes_and_next_turn_callback_guarded.2 _ 0 hfin⟩

/-! ## C5 — the hint schedule

`startTurn` computes the thresholds `Math.floor(timePerTurn*0.5)` (words
longer than 3 characters ignoring spaces) and `Math.floor(timePerTurn*0.25)`
(words longer than 5), and the 1-second hint check fires a tier once
`timePerTurn - threshold ≤ elapsed`.  At integer elapsed times the floored
thresholds coincide with the spec's real-valued ones. -/

/-- The 50%-tier firing condition with its floored threshold is equivalent
to the claim's real-valued condition `elapsed ≥ timePerTurn - 0.5*timePerTurn`. -/
theorem fire_half (T e : ℤ) : T - ⌊(T:ℚ)*0.5⌋ ≤ e ↔ (T:ℚ) - 0.5*T ≤ (e:ℚ) := by
  have h : (T - ⌊(T:ℚ)*0.5⌋ ≤ e) ↔ (T - e ≤ ⌊(T:ℚ)*0.5⌋) := by omega
  rw [h, Int.le_floor]
  push_cast
  constructor <;> intro <;> linarith

/-- The 25%-threshold tier fires exactly when `elapsed ≥ 0.75*timePerTurn`. -/
theorem fire_quarter (T e : ℤ) : T - ⌊(T:ℚ)*0.25⌋ ≤ e ↔ (T:ℚ) - 0.25*T ≤ (e:ℚ) := by
  have h : (T - ⌊(T:ℚ)*0.25⌋ ≤ e) ↔ (T - e ≤ ⌊(T:ℚ)*0.25⌋) := by omega
  rw [h, Int.le_floor]
  push_cast
  constructor <;> intro <;> linarith

/-- Closed form of the due-tier count as a sum of two indicators. -/
theorem shouldRevealCount_eq (w : String) (T e : ℤ) :
    shouldRevealCount w T e =
      (if 3 < wordLenNoSpaces w ∧ T - ⌊(T:ℚ)*0.5⌋ ≤ e then 1 else 0) +
      (if 5 < wordLenNoSpaces w ∧ T - ⌊(T:ℚ)*0.25⌋ ≤ e then 1 else 0) := by
  unfold shouldRevealCount hintTimes
  by_cases h3 : 3 < wordLenNoSpaces w <;> by_cases h5 : 5 < wordLenNoSpaces w <;>
    simp only [h3, h5, if_true, if_false, ite_true, ite_false, List.nil_append,
      List.append_nil, List.cons_append, List.filter_cons, List.filter_nil,
      decide_eq_true_eq, List.length_nil, true_and, false_and] <;>
    split_ifs <;> simp_all

/-- C5: hint tiers are determined by the word length ignoring spaces — none
for length ≤ 3, one firing once elapsed reaches `timePerTurn - 0.5*timePerTurn`
for length in (3,5], and additionally a second at `timePerTurn -
0.25*timePerTurn` for length > 5; with `timePerTurn = 40`, "King" fires its
single tier exactly from elapsed 20 and "Calculator" fires tiers from
elapsed 20 and 30. -/
theorem hint_schedule (w : String) (T e : ℤ) :
    (wordLenNoSpaces w ≤ 3 → shouldRevealCount w T e = 0) ∧
    (3 < wordLenNoSpaces w → wordLenNoSpaces w ≤ 5 →
      shouldRevealCount w T e = if (T:ℚ) - 0.5*T ≤ (e:ℚ) then 1 else 0) ∧
    (5 < wordLenNoSpaces w →
      shouldRevealCount w T e =
        (if (T:ℚ) - 0.5*T ≤ (e:ℚ) then 1 else 0) +
        (if (T:ℚ) - 0.25*T ≤ (e:ℚ) then 1 else 0)) ∧
    (shouldRevealCount "King" 40 e = if (20:ℤ) ≤ e then 1 else 0) ∧
    (shouldRevealCount "Calculator" 40 e =
      (if (20:ℤ) ≤ e then 1 else 0) + (if (30:ℤ) ≤ e then 1 else 0)) := by
  refine ⟨?_, ?_, ?_, ?_, ?_⟩
  · intro h3
    rw [shouldRevealCount_eq,
      if_neg (fun (hc : 3 < wordLenNoSpaces w ∧ T - ⌊(T:ℚ)*0.5⌋ ≤ e) =>
        absurd hc.1 (by omega)),
      if_neg (fun (hc : 5 < wordLenNoSpaces w ∧ T - ⌊(T:ℚ)*0.25⌋ ≤ e) =>
        absurd hc.1 (by omega))]
  · intro h3 h5
    have hiff : (3 < wordLenNoSpaces w ∧ T - ⌊(T:ℚ)*0.5⌋ ≤ e) ↔
        ((T:ℚ) - 0.5*T ≤ (e:ℚ)) := by
      constructor
      · exact fun hc => (fire_half T e).mp hc.2
      · exact fun hq => ⟨h3, (fire_half T e).mpr hq⟩
    rw [shouldRevealCount_eq, if_congr hiff rfl rfl,
      if_neg (fun (hc : 5 < wordLenNoSpaces w ∧ T - ⌊(T:ℚ)*0.25⌋ ≤ e) =>
        absurd hc.1 (by omega)), add_zero]
  · intro h5
    have h3 : 3 < wordLenNoSpaces w := by omega
    have hiff : (3 < wordLenNoSpaces w ∧ T - ⌊(T:ℚ)*0.5⌋ ≤ e) ↔
        ((T:ℚ) - 0.5*T ≤ (e:ℚ)) := by
      constructor
      · exact fun hc => (fire_half T e).mp hc.2
      · exact fun hq => ⟨h3, (fire_half T e).mpr hq⟩
    have hiff2 : (5 < wordLenNoSpaces w ∧ T - ⌊(T:ℚ)*0.25⌋ ≤ e) ↔
        ((T:ℚ) - 0.25*T ≤ (e:ℚ)) := by
      constructor
      · exact fun hc => (fire_quarter T e).mp hc.2
      · exact fun hq => ⟨h5, (fire_quarter T e).mpr hq⟩
    rw [shouldRevealCount_eq, if_congr hiff rfl rfl, if_congr hiff2 rfl rfl]
  · have hl : wordLenNoSpaces "King" = 4 := by decide
    have hf : (⌊((40:ℤ):ℚ)*0.5⌋ : ℤ) = 20 := by norm_num
    have hiff : (3 < wordLenNoSpaces "King" ∧ (40:ℤ) - ⌊((40:ℤ):ℚ)*0.5⌋ ≤ e) ↔
        ((20:ℤ) ≤ e) := by
      rw [hl, hf]; omega
    have hneg : ¬ (5 < wordLenNoSpaces "King" ∧ (40:ℤ) - ⌊((40:ℤ):ℚ)*0.25⌋ ≤ e) := by
      rw [hl]; omega
    rw [shouldRevealCount_eq, if_congr hiff rfl rfl, if_neg hneg, add_zero]
  · have hl : wordLenNoSpaces "Calculator" = 10 := by decide
    have hf : (⌊((40:ℤ):ℚ)*0.5⌋ : ℤ) = 20 := by norm_num
    have hq : (⌊((40:ℤ):ℚ)*0.25⌋ : ℤ) = 10 := by norm_num
    have hiff : (3 < wordLenNoSpaces "Calculator" ∧ (40:ℤ) - ⌊((40:ℤ):ℚ)*0.5⌋ ≤ e) ↔
        ((20:ℤ) ≤ e) := by
      rw [hl, hf]; omega
    have hiff2 : (5 < wordLenNoSpaces "Calculator" ∧ (40:ℤ) - ⌊((40:ℤ):ℚ)*0.25⌋ ≤ e) ↔
        ((30:ℤ) ≤ e) := by
      rw [hl, hq]; omega
    rw [shouldRevealCount_eq, if_congr hiff rfl rfl, if_congr hiff2 rfl rfl]

/-- Witness for C5 at the scenario's inputs: "King" (length 4) with
`timePerTurn = 40` has one due tier at elapsed 20, and "Calculator"
(length 10) has both tiers due at elapsed 30. -/
theorem hint_schedule_witness :
    (shouldRevealCount "King" 40 20
      = if ((40:ℤ):ℚ) - 0.5*((40:ℤ):ℚ) ≤ (((20:ℤ)):ℚ) then 1 else 0) ∧
    (shouldRevealCount "Calculator" 40 30
      = (if ((40:ℤ):ℚ) - 0.5*((40:ℤ):ℚ) ≤ (((30:ℤ)):ℚ) then 1 else 0) +
        (if ((40:ℤ):ℚ) - 0.25*((40:ℤ):ℚ) ≤ (((30:ℤ)):ℚ) then 1 else 0)) :=
  ⟨(hint_schedule "King" 40 20).2.1 (by decide) (by decide),
   (hint_schedule "Calculator" 40 30).2.2.1 (by decide)⟩

/-! ## C2 and C7 — guess handling

Helper lemmas about the in-place score mutation, then the scoring theorem
(C2) and the close-guess classification (C7). -/

/-- Looking up any key after an `addScore` mutation: the score of the
targeted key grows by `pts`, every other entry is untouched. -/
theorem mapGet_addScore (l : List (String × Player)) (k pid : String) (pts : ℤ) :
    mapGet (addScore l pid pts) k =
      (mapGet l k).map (fun v => if k = pid then { v with score := v.score + pts } else v) := by
  induction l with
  | nil => rfl
  | cons hd tl ih =>
    simp only [addScore, List.map_cons] at ih ⊢
    by_cases hp : hd.1 = pid
    · rw [if_pos hp]
      by_cases hk : hd.1 = k
      · rw [mapGet, if_pos hk, mapGet, if_pos hk]
        have hkp : k = pid := (hk.symm).trans hp
        simp [hkp]
      · rw [mapGet, if_neg hk, mapGet, if_neg hk]
        exact ih
    · rw [if_neg hp]
      by_cases hk : hd.1 = k
      · rw [mapGet, if_pos hk, mapGet, if_pos hk]
        have hkp : ¬ k = pid := fun h => hp (hk.trans h)
        simp [hkp]
      · rw [mapGet, if_neg hk, mapGet, if_neg hk]
        exact ih

/-- `orderBonus` written the way the spec states it. -/
theorem orderBonus_comm (r : ℕ) : orderBonus r = max 0 (1 - 0.15 * ((r:ℚ) - 1)) := by
  rw [orderBonus, mul_comm]

/-- C2: on a correct guess with rank `r = |correctGuessers|+1` and
`t = timeRemaining/timePerTurn`, the guesser's score grows by exactly
`round((200+300t)·max(0, 1−0.15(r−1)))` and the (still-present) drawer's by
`round(50+100t)`; both are pure functions of `t` and `r`, with
`t=0.75, r=1 ↦ (425, 125)`, `t=0.75, r=2 ↦ 361`, and every rank `r ≥ 8`
earning the guesser 0. -/
theorem correct_guess_scoring (room : Room) (pid guess : String) (p : Player)
    (ha : room.turnActive = true)
    (hd : listGetI room.playerOrder room.currentDrawerIndex ≠ some pid)
    (hc : pid ∉ room.correctGuessers)
    (hl : mapGet room.players pid = some p)
    (heq : jsNormalize guess = jsNormalize room.currentWord) :
    mapGet (handleGuess room pid guess).1.players pid =
      some { p with score := (p.score +
        jsRound ((200 + 300 * roomTimeRatio room) *
          max 0 (1 - 0.15 * ((((room.correctGuessers.card + 1 : ℕ)):ℚ) - 1)))) } ∧
    (∀ (d : String) (dp : Player),
      listGetI room.playerOrder room.currentDrawerIndex = some d →
      mapGet room.players d = some dp →
      mapGet (handleGuess room pid guess).1.players d =
        some { dp with score := (dp.score + jsRound (50 + 100 * roomTimeRatio room)) }) ∧
    guesserPoints (3/4) 1 = 425 ∧ drawerPoints (3/4) = 125 ∧
    guesserPoints (3/4) 2 = 361 ∧
    (∀ (t : ℚ) (r : ℕ), 8 ≤ r → guesserPoints t r = 0) := by
  have hcard : (insert pid room.correctGuessers).card = room.correctGuessers.card + 1 :=
    Finset.card_insert_of_not_mem hc
  have hpts : guesserPoints (roomTimeRatio room) (insert pid room.correctGuessers).card =
      jsRound ((200 + 300 * roomTimeRatio room) *
        max 0 (1 - 0.15 * ((((room.correctGuessers.card + 1 : ℕ)):ℚ) - 1))) := by
    rw [hcard, guesserPoints, orderBonus_comm]
  have hplayers : (handleGuess room pid guess).1.players
      = (correctGuessUpdate room pid).players := by
    simp only [handleGuess, ha, Bool.true_eq_false, ite_false, hl, if_neg hd, if_neg hc,
      if_pos heq]
    split
    · rw [endTurn_players]
    · rfl
  refine ⟨?_, ?_, by norm_num [guesserPoints, jsRound, orderBonus],
    by norm_num [drawerPoints, jsRound],
    by norm_num [guesserPoints, jsRound, orderBonus], ?_⟩
  · rw [hplayers, correctGuessUpdate]
    rcases hdw : listGetI room.playerOrder room.currentDrawerIndex with _ | d
    · simp only [hdw]
      rw [mapGet_addScore, hl, hpts]
      simp
    · have hdpid : ¬ pid = d := fun h => hd (h ▸ hdw)
      simp only [hdw]
      split
      · rw [mapGet_addScore, mapGet_addScore, hl, hpts]
        simp [hdpid]
      · rw [mapGet_addScore, hl, hpts]
        simp
  · intro d dp hdw hdp
    have hdpid : ¬ d = pid := fun h => hd (h ▸ hdw)
    rw [hplayers, correctGuessUpdate]
    simp only [hdw]
    rw [if_pos (by rw [hdp]; rfl)]
    rw [mapGet_addScore, mapGet_addScore, hdp]
    simp [hdpid, drawerPoints]
  · intro t r hr
    have h8 : (8:ℚ) ≤ (r:ℚ) := by exact_mod_cast hr
    have hb : (1 - ((r:ℚ) - 1) * 0.15) ≤ 0 := by linarith
    rw [guesserPoints, orderBonus, max_eq_left hb, mul_zero, jsRound]
    norm_num

/-- A two-player room 10 seconds into its first turn, built through the
handlers: "A" creates, "B" joins, the game starts (order shuffles to
["B","A"], so "B" draws "Queen" with `timePerTurn = 40`), then 10 countdown
ticks leave `timeRemaining = 30`. -/
def roomC2 : Room :=
  let a := createRoomHandler "ZZZZ" "A" "Ann" ⟨none, none, none⟩
  let b := (joinRoomPlayer a "B" "Ben").1
  let g := (startGame b "A" none (fun _ => 0)).1
  ticks (startTurn g 0).1 10

/-- Witness for C2: in `roomC2` (ratio 30/40), guesser "A" answers "queen";
the broadcast/score bookkeeping follows the formulas and the scenario values
425/125/361 hold. -/
theorem correct_guess_scoring_witness :
    mapGet (handleGuess roomC2 "A" "queen").1.players "A" =
      some { name := "Ann", score := (0 +
        jsRound ((200 + 300 * roomTimeRatio roomC2) *
          max 0 (1 - 0.15 * ((((roomC2.correctGuessers.card + 1 : ℕ)):ℚ) - 1)))) } ∧
    mapGet (handleGuess roomC2 "A" "queen").1.players "B" =
      some { name := "Ben", score := (0 + jsRound (50 + 100 * roomTimeRatio roomC2)) } ∧
    guesserPoints (3/4) 1 = 425 ∧ drawerPoints (3/4) = 125 ∧ guesserPoints (3/4) 2 = 361 := by
  have h := correct_guess_scoring roomC2 "A" "queen" ⟨"Ann", 0⟩ (by decide) (by decide)
    (by decide) (by decide) (by decide)
  exact ⟨h.1, h.2.1 "B" ⟨"Ben", 0⟩ (by decide) (by decide), h.2.2.1, h.2.2.2.1,
    h.2.2.2.2.1⟩

/-- C7: an eligible non-matching guess is broadcast as a chat message whose
`isClose` flag is exactly `(word contains guess ∧ |guess| ≥ 3) ∨ (guess
contains word)` on the normalized strings, and the room state is unchanged. -/
theorem close_guess_classification (room : Room) (pid guess : String) (p : Player)
    (ha : room.turnActive = true)
    (hd : listGetI room.playerOrder room.currentDrawerIndex ≠ some pid)
    (hc : pid ∉ room.correctGuessers)
    (hl : mapGet room.players pid = some p)
    (hne : jsNormalize guess ≠ jsNormalize room.currentWord) :
    (handleGuess room pid guess).2 =
      [Event.chatMessage pid guess
        ((jsIncludes (jsNormalize room.currentWord) (jsNormalize guess) &&
          decide (3 ≤ (jsNormalize guess).length)) ||
         jsIncludes (jsNormalize guess) (jsNormalize room.currentWord))] ∧
    (handleGuess room pid guess).1 = room := by
  have hdec : decide (jsNormalize guess ≠ jsNormalize room.currentWord) = true :=
    decide_eq_true hne
  simp only [handleGuess, ha, Bool.true_eq_false, if_false, ite_false, hl, if_neg hd,
    if_neg hc, if_neg hne, hdec, Bool.and_true]
  exact ⟨trivial, trivial⟩

/-- The same reachable mid-turn room as `roomC2`, for the C7 witness. -/
def roomC7 : Room :=
  let a := createRoomHandler "ZZZZ" "A" "Ann" ⟨none, none, none⟩
  let b := (joinRoomPlayer a "B" "Ben").1
  let g := (startGame b "A" none (fun _ => 0)).1
  ticks (startTurn g 0).1 10

/-- Witness for C7: against the word "Queen", the guess "quee" is flagged
close (substring, length ≥ 3) and the near-miss "queens" is flagged close by
the reverse containment; the flag expression evaluates to `true` for "quee". -/
theorem close_guess_classification_witness :
    (handleGuess roomC7 "A" "quee").2 =
      [Event.chatMessage "A" "quee"
        ((jsIncludes (jsNormalize roomC7.currentWord) (jsNormalize "quee") &&
          decide (3 ≤ (jsNormalize "quee").length)) ||
         jsIncludes (jsNormalize "quee") (jsNormalize roomC7.currentWord))] ∧
    ((jsIncludes (jsNormalize roomC7.currentWord) (jsNormalize "quee") &&
        decide (3 ≤ (jsNormalize "quee").length)) ||
       jsIncludes (jsNormalize "quee") (jsNormalize roomC7.currentWord)) = true := by
  have h := close_guess_classification roomC7 "A" "quee" ⟨"Ann", 0⟩ (by decide) (by decide)
    (by decide) (by decide) (by decide)
  exact ⟨h.1, by decide⟩

/-! ## C8 — the `correctGuessers` invariant

Guess handling alone preserves "no drawer in `correctGuessers`, size ≤
players − 1".  Disconnects break it: they remove the departing player from
`players`/`playerOrder` but never from `correctGuessers`, and removing an id
before the drawer's slot shifts `playerOrder[currentDrawerIndex]` onto a
different player, who may already have guessed. -/

/-- Membership invariant of `correctGuessers`: every recorded guesser is a
present player distinct from the current drawer expression. -/
def guessersOk (room : Room) : Prop :=
  ∀ x ∈ room.correctGuessers,
    (mapGet room.players x).isSome = true ∧
    listGetI room.playerOrder room.currentDrawerIndex ≠ some x

theorem addScore_keys (l : List (String × Player)) (pid : String) (pts : ℤ) :
    (addScore l pid pts).map Prod.fst = l.map Prod.fst := by
  rw [addScore, List.map_map]
  congr 1
  funext p
  by_cases h : p.1 = pid <;> simp [h]

@[simp] theorem correctGuessUpdate_playerOrder (room : Room) (pid : String) :
    (correctGuessUpdate room pid).playerOrder = room.playerOrder := rfl

@[simp] theorem correctGuessUpdate_currentDrawerIndex (room : Room) (pid : String) :
    (correctGuessUpdate room pid).currentDrawerIndex = room.currentDrawerIndex := rfl

@[simp] theorem correctGuessUpdate_correctGuessers (room : Room) (pid : String) :
    (correctGuessUpdate room pid).correctGuessers = insert pid room.correctGuessers := rfl

@[simp] theorem correctGuessUpdate_state (room : Room) (pid : String) :
    (correctGuessUpdate room pid).state = room.state := rfl

theorem correctGuessUpdate_keys (room : Room) (pid : String) :
    (correctGuessUpdate room pid).players.map Prod.fst = room.players.map Prod.fst := by
  rw [correctGuessUpdate]
  dsimp only
  rcases listGetI room.playerOrder room.currentDrawerIndex with _ | d
  · exact addScore_keys _ _ _
  · dsimp only
    split
    · rw [addScore_keys, addScore_keys]
    · exact addScore_keys _ _ _

theorem correctGuessUpdate_mapGet_isSome (room : Room) (pid x : String) :
    (mapGet (correctGuessUpdate room pid).players x).isSome
      = (mapGet room.players x).isSome := by
  rw [correctGuessUpdate]
  dsimp only
  rcases listGetI room.playerOrder room.currentDrawerIndex with _ | d
  · rw [mapGet_addScore]
    cases mapGet room.players x <;> rfl
  · dsimp only
    split
    · rw [mapGet_addScore, mapGet_addScore]
      cases mapGet room.players x <;> rfl
    · rw [mapGet_addScore]
      cases mapGet room.players x <;> rfl

theorem handleGuess_playerOrder (room : Room) (pid g : String) :
    (handleGuess room pid g).1.playerOrder = room.playerOrder := by
  simp only [handleGuess]
  repeat' split
  all_goals simp

theorem handleGuess_currentDrawerIndex (room : Room) (pid g : String) :
    (handleGuess room pid g).1.currentDrawerIndex = room.currentDrawerIndex := by
  simp only [handleGuess]
  repeat' split
  all_goals simp

theorem handleGuess_keys (room : Room) (pid g : String) :
    (handleGuess room pid g).1.players.map Prod.fst = room.players.map Prod.fst := by
  simp only [handleGuess]
  repeat' split
  all_goals simp [correctGuessUpdate_keys]

theorem guessersOk_correctGuessUpdate (room : Room) (pid : String)
    (hdneq : listGetI room.playerOrder room.currentDrawerIndex ≠ some pid)
    (hm : (mapGet room.players pid).isSome = true)
    (h : guessersOk room) :
    guessersOk (correctGuessUpdate room pid) := by
  intro x hx
  rw [correctGuessUpdate_correctGuessers] at hx
  rcases Finset.mem_insert.mp hx with rfl | hx
  · exact ⟨by rw [correctGuessUpdate_mapGet_isSome]; exact hm,
           by rw [correctGuessUpdate_playerOrder, correctGuessUpdate_currentDrawerIndex];
              exact hdneq⟩
  · obtain ⟨h1, h2⟩ := h x hx
    exact ⟨by rw [correctGuessUpdate_mapGet_isSome]; exact h1,
           by rw [correctGuessUpdate_playerOrder, correctGuessUpdate_currentDrawerIndex];
              exact h2⟩

theorem guessersOk_endTurn (R : Room) (b : Bool) (h : guessersOk R) :
    guessersOk (endTurn R b).1 := by
  intro x hx
  rw [endTurn_correctGuessers] at hx
  obtain ⟨h1, h2⟩ := h x hx
  exact ⟨by rw [endTurn_players]; exact h1,
         by rw [endTurn_playerOrder, endTurn_currentDrawerIndex]; exact h2⟩

theorem handleGuess_guessersOk (room : Room) (pid g : String) (h : guessersOk room) :
    guessersOk (handleGuess room pid g).1 := by
  simp only [handleGuess]
  repeat' split
  all_goals try exact h
  · rename_i hdneq hnmem hscr hpl hmap heq hcnt
    exact guessersOk_endTurn _ true (guessersOk_correctGuessUpdate room pid hdneq
      (by rw [hmap]; rfl) h)
  · rename_i hdneq hnmem hscr hpl hmap heq hcnt
    exact guessersOk_correctGuessUpdate room pid hdneq (by rw [hmap]; rfl) h

theorem applyGuesses_playerOrder (gs : List (String × String)) :
    ∀ room : Room, (applyGuesses room gs).playerOrder = room.playerOrder := by
  induction gs with
  | nil => intro room; rfl
  | cons hd tl ih =>
    intro room
    obtain ⟨pid, g⟩ := hd
    rw [applyGuesses, ih, handleGuess_playerOrder]

theorem applyGuesses_currentDrawerIndex (gs : List (String × String)) :
    ∀ room : Room, (applyGuesses room gs).currentDrawerIndex = room.currentDrawerIndex := by
  induction gs with
  | nil => intro room; rfl
  | cons hd tl ih =>
    intro room
    obtain ⟨pid, g⟩ := hd
    rw [applyGuesses, ih, handleGuess_currentDrawerIndex]

theorem applyGuesses_keys (gs : List (String × String)) :
    ∀ room : Room, (applyGuesses room gs).players.map Prod.fst
      = room.players.map Prod.fst := by
  induction gs with
  | nil => intro room; rfl
  | cons hd tl ih =>
    intro room
    obtain ⟨pid, g⟩ := hd
    rw [applyGuesses, ih, handleGuess_keys]

theorem applyGuesses_guessersOk (gs : List (String × String)) :
    ∀ room : Room, guessersOk room → guessersOk (applyGuesses room gs) := by
  induction gs with
  | nil => intro room h; exact h
  | cons hd tl ih =>
    intro room h
    obtain ⟨pid, g⟩ := hd
    rw [applyGuesses]
    exact ih _ (handleGuess_guessersOk room pid g h)

theorem mem_keys_of_mapGet_isSome (l : List (String × Player)) (k : String)
    (h : (mapGet l k).isSome = true) : k ∈ l.map Prod.fst := by
  induction l with
  | nil => simp [mapGet] at h
  | cons hd tl ih =>
    rw [mapGet] at h
    rw [List.map_cons]
    by_cases hk : hd.1 = k
    · exact List.mem_cons.mpr (Or.inl hk.symm)
    · rw [if_neg hk] at h
      exact List.mem_cons.mpr (Or.inr (ih h))

/-- C8 (amended): from any state whose `correctGuessers` is empty (as
`startTurn` makes it) with the current drawer `d` a present player and
`Map`-unique player keys, any sequence of guess events keeps the drawer out
of `correctGuessers` and its size at most players − 1 (and the drawer
expression stays `d`).  Disconnect events break this — see the
counterexample. -/
theorem guesser_invariant_under_guesses (room : Room) (gs : List (String × String))
    (d : String)
    (hset : room.correctGuessers = ∅)
    (hdw : listGetI room.playerOrder room.currentDrawerIndex = some d)
    (hdp : (mapGet room.players d).isSome = true)
    (hnd : (room.players.map Prod.fst).Nodup) :
    d ∉ (applyGuesses room gs).correctGuessers ∧
    (applyGuesses room gs).correctGuessers.card
      ≤ (applyGuesses room gs).players.length - 1 ∧
    listGetI (applyGuesses room gs).playerOrder (applyGuesses room gs).currentDrawerIndex
      = some d := by
  have hOk0 : guessersOk room := by
    intro x hx
    rw [hset] at hx
    exact absurd hx (Finset.not_mem_empty x)
  have hOk := applyGuesses_guessersOk gs room hOk0
  have hkeys := applyGuesses_keys gs room
  have hdw' : listGetI (applyGuesses room gs).playerOrder
      (applyGuesses room gs).currentDrawerIndex = some d := by
    rw [applyGuesses_playerOrder, applyGuesses_currentDrawerIndex]
    exact hdw
  refine ⟨fun hmem => (hOk d hmem).2 hdw', ?_, hdw'⟩
  have hsub : (applyGuesses room gs).correctGuessers ⊆
      ((applyGuesses room gs).players.map Prod.fst).toFinset.erase d := by
    intro x hx
    obtain ⟨h1, h2⟩ := hOk x hx
    rw [Finset.mem_erase, List.mem_toFinset]
    exact ⟨fun hxd => h2 (hxd ▸ hdw'), mem_keys_of_mapGet_isSome _ _ h1⟩
  have hcard := Finset.card_le_card hsub
  have hdmem : d ∈ ((applyGuesses room gs).players.map Prod.fst).toFinset := by
    rw [List.mem_toFinset, hkeys]
    exact mem_keys_of_mapGet_isSome _ _ hdp
  have herase := Finset.card_erase_of_mem hdmem
  have hnodupR : ((applyGuesses room gs).players.map Prod.fst).Nodup := by
    rw [hkeys]; exact hnd
  have htf := List.toFinset_card_of_nodup hnodupR
  have hlen : ((applyGuesses room gs).players.map Prod.fst).length
      = (applyGuesses room gs).players.length := List.length_map _ _
  omega

/-- A three-player room on its first turn: order shuffles to ["B","C","H"],
so "B" draws "Queen". -/
def roomC8 : Room :=
  let a := createRoomHandler "ZZZZ" "H" "Hope" ⟨none, none, none⟩
  let b := (joinRoomPlayer a "B" "Ben").1
  let c := (joinRoomPlayer b "C" "Cal").1
  let g := (startGame c "H" none (fun _ => 0)).1
  (startTurn g 0).1

/-- Counterexample to C8 as stated: "C" guesses correctly, then drawer "B"
disconnects.  The drawer expression `playerOrder[currentDrawerIndex]` now
denotes "C", who *is* in `correctGuessers`, in a reachable mid-game state
(the turn is even still active, due to the C1 bug). -/
theorem drawer_disconnect_breaks_guesser_invariant :
    listGetI (handleDisconnect (handleGuess roomC8 "C" "queen").1 "B" false).room.playerOrder
        (handleDisconnect (handleGuess roomC8 "C" "queen").1 "B" false).room.currentDrawerIndex
      = some "C" ∧
    "C" ∈ (handleDisconnect (handleGuess roomC8 "C" "queen").1 "B" false).room.correctGuessers ∧
    (handleDisconnect (handleGuess roomC8 "C" "queen").1 "B" false).room.turnActive = true ∧
    (handleDisconnect (handleGuess roomC8 "C" "queen").1 "B" false).room.state = .playing := by
  decide

/-- Witness for the amended C8: in `roomC8`, guesses by "C" and "H" (both
correct) keep drawer "B" out of `correctGuessers` and the size within
bounds. -/
theorem guesser_invariant_under_guesses_witness :
    "B" ∉ (applyGuesses roomC8 [("C", "queen"), ("H", "queen")]).correctGuessers ∧
    (applyGuesses roomC8 [("C", "queen"), ("H", "queen")]).correctGuessers.card
      ≤ (applyGuesses roomC8 [("C", "queen"), ("H", "queen")]).players.length - 1 ∧
    listGetI (applyGuesses roomC8 [("C", "queen"), ("H", "queen")]).playerOrder
        (applyGuesses roomC8 [("C", "queen"), ("H", "queen")]).currentDrawerIndex
      = some "B" :=
  guesser_invariant_under_guesses roomC8 [("C", "queen"), ("H", "queen")] "B"
    (by decide) (by decide) (by decide) (by decide)

/-! ## C6 and C10 — word selection

`getRandomWord` picks among catalog words not in `usedWords` and records the
pick; once the catalog is exhausted it clears the set and picks from the
full catalog *without recording that pick*. -/

theorem word_list_nodup : WORD_LIST.Nodup := by decide

theorem available_eq_nil_iff (used : Finset String) :
    WORD_LIST.filter (fun w => w ∉ used) = [] ↔ ∀ w ∈ WORD_LIST, w ∈ used := by
  rw [List.filter_eq_nil_iff]
  simp

theorem getRandomWord_nonempty (used : Finset String) (i : ℕ)
    (h : WORD_LIST.filter (fun w => w ∉ used) ≠ []) :
    getRandomWord used i
      = (((WORD_LIST.filter (fun w => w ∉ used)).get?
            (i % (WORD_LIST.filter (fun w => w ∉ used)).length)).getD "",
         insert (((WORD_LIST.filter (fun w => w ∉ used)).get?
            (i % (WORD_LIST.filter (fun w => w ∉ used)).length)).getD "") used) := by
  have hlen0 : ¬ (WORD_LIST.filter (fun w => w ∉ used)).length = 0 := by
    intro h0
    exact h (List.length_eq_zero.mp h0)
  rw [getRandomWord, if_neg hlen0]

theorem getRandomWord_pick_mem (used : Finset String) (i : ℕ)
    (h : WORD_LIST.filter (fun w => w ∉ used) ≠ []) :
    (getRandomWord used i).1 ∈ WORD_LIST.filter (fun w => w ∉ used) := by
  rw [getRandomWord_nonempty used i h]
  have hlen : 0 < (WORD_LIST.filter (fun w => w ∉ used)).length := List.length_pos.mpr h
  have hidx := Nat.mod_lt i hlen
  rw [List.get?_eq_get hidx]
  exact List.get_mem _ _ _

theorem mem_take_of_getQ {α : Type} (l : List α) (j k : ℕ) (w : α) (hjk : j < k)
    (h : l.get? j = some w) : w ∈ l.take k := by
  induction l generalizing j k with
  | nil => simp [List.get?] at h
  | cons a as ih =>
    cases j with
    | zero =>
      simp only [List.get?] at h
      cases k with
      | zero => omega
      | succ k' =>
        rw [List.take_succ_cons]
        have : a = w := by injection h
        exact this ▸ List.mem_cons_self _ _
    | succ j' =>
      cases k with
      | zero => omega
      | succ k' =>
        rw [List.get?_cons_succ] at h
        rw [List.take_succ_cons]
        exact List.mem_cons.mpr (Or.inr (ih j' k' (by omega) h))

/-- Key lemma: if the word drawn at step `k` was already used at the start
or already drawn earlier, then by step `k` the whole catalog has been
covered (exhaustion must have happened). -/
theorem runDraws_repeat_covers (rs : List ℕ) :
    ∀ (used : Finset String) (k : ℕ) (w : String),
      (runDraws used rs).get? k = some w →
      (w ∈ used ∨ w ∈ (runDraws used rs).take k) →
      ∀ x ∈ WORD_LIST, x ∈ used ∨ x ∈ (runDraws used rs).take k := by
  induction rs with
  | nil =>
    intro used k w hget _
    simp [runDraws, List.get?] at hget
  | cons r rs ih =>
    intro used k w hget hmem x hx
    by_cases hav : WORD_LIST.filter (fun w => w ∉ used) = []
    · exact Or.inl ((available_eq_nil_iff used).mp hav x hx)
    · have hw0 := getRandomWord_pick_mem used r hav
      have hw0n : (getRandomWord used r).1 ∉ used := by
        have := (List.mem_filter.mp hw0).2
        simpa using this
      have hused' : (getRandomWord used r).2 = insert (getRandomWord used r).1 used := by
        rw [getRandomWord_nonempty used r hav]
      cases k with
      | zero =>
        rw [runDraws] at hget
        rw [List.get?] at hget
        have hw : (getRandomWord used r).1 = w := by injection hget
        have : w ∈ used := by
          rcases hmem with h | h
          · exact h
          · simp [List.take] at h
        exact absurd (hw ▸ this) hw0n
      | succ k' =>
        rw [runDraws] at hget hmem ⊢
        rw [List.get?_cons_succ] at hget
        rw [List.take_succ_cons] at hmem ⊢
        have hmem' : w ∈ (getRandomWord used r).2 ∨
            w ∈ (runDraws (getRandomWord used r).2 rs).take k' := by
          rcases hmem with h | h
          · exact Or.inl (by rw [hused']; exact Finset.mem_insert_of_mem h)
          · rcases List.mem_cons.mp h with h | h
            · exact Or.inl (by rw [hused']; exact h ▸ Finset.mem_insert_self _ _)
            · exact Or.inr h
        rcases ih (getRandomWord used r).2 k' w hget hmem' x hx with h | h
        · rw [hused'] at h
          rcases Finset.mem_insert.mp h with h | h
          · exact Or.inr (h ▸ List.mem_cons_self _ _)
          · exact Or.inl h
        · exact Or.inr (List.mem_cons.mpr (Or.inr h))

/-- The used set covering the whole catalog. -/
def usedAllWords : Finset String := WORD_LIST.toFinset

/-- C6: a pick with unused words remaining returns the `i`-th unused word
(each random index `i < |available|` hits exactly one unused word — the
unused list has no duplicates — so the uniform index yields a uniform word)
and records it; an exhausted pick clears the set and draws from the full
catalog.  Consequently, a word repeats within a game only after every
catalog word has already appeared: a repeat at position `k` of a draw
sequence from an empty used set forces all of `WORD_LIST` into the first `k`
draws. -/
theorem word_selection_no_early_repeat :
    (∀ (used : Finset String) (i : ℕ),
      i < (WORD_LIST.filter (fun w => w ∉ used)).length →
      getRandomWord used i
        = (((WORD_LIST.filter (fun w => w ∉ used)).get? i).getD "",
           insert (((WORD_LIST.filter (fun w => w ∉ used)).get? i).getD "") used) ∧
      (((WORD_LIST.filter (fun w => w ∉ used)).get? i).getD "") ∈ WORD_LIST ∧
      (((WORD_LIST.filter (fun w => w ∉ used)).get? i).getD "") ∉ used) ∧
    (∀ used : Finset String, (WORD_LIST.filter (fun w => w ∉ used)).Nodup) ∧
    (∀ (used : Finset String) (i : ℕ),
      (∀ w ∈ WORD_LIST, w ∈ used) →
      getRandomWord used i = ((WORD_LIST.get? (i % WORD_LIST.length)).getD "", ∅)) ∧
    (∀ (rs : List ℕ) (j k : ℕ) (w : String), j < k →
      (runDraws ∅ rs).get? j = some w →
      (runDraws ∅ rs).get? k = some w →
      ∀ x ∈ WORD_LIST, x ∈ (runDraws ∅ rs).take k) := by
  refine ⟨?_, ?_, ?_, ?_⟩
  · intro used i hi
    have hne : WORD_LIST.filter (fun w => w ∉ used) ≠ [] := by
      intro h0
      rw [h0] at hi
      simp at hi
    have hmod : i % (WORD_LIST.filter (fun w => w ∉ used)).length = i :=
      Nat.mod_eq_of_lt hi
    have hp := getRandomWord_nonempty used i hne
    rw [hmod] at hp
    have hpm : (((WORD_LIST.filter (fun w => w ∉ used)).get? i).getD "")
        ∈ WORD_LIST.filter (fun w => w ∉ used) := by
      rw [List.get?_eq_get hi]
      exact List.get_mem _ _ _
    have hf := List.mem_filter.mp hpm
    exact ⟨hp, hf.1, by simpa using hf.2⟩
  · intro used
    exact List.Nodup.filter _ word_list_nodup
  · intro used i hall
    have h0 : (WORD_LIST.filter (fun w => w ∉ used)).length = 0 := by
      rw [List.length_eq_zero, available_eq_nil_iff]
      exact hall
    rw [getRandomWord, if_pos h0]
  · intro rs j k w hjk hj hk x hx
    have hwmem : w ∈ (runDraws ∅ rs).take k := mem_take_of_getQ _ j k w hjk hj
    have h := runDraws_repeat_covers rs ∅ k w hk (Or.inr hwmem) x hx
    simpa using h

/-- Witness for C6: from an empty used set the pick with index 0 is the
first unused word ("Queen"), recorded as used; from a fully-used set the
pick reads the full catalog. -/
theorem word_selection_no_early_repeat_witness :
    (getRandomWord ∅ 0
      = (((WORD_LIST.filter (fun w => w ∉ (∅ : Finset String))).get? 0).getD "",
         insert (((WORD_LIST.filter (fun w => w ∉ (∅ : Finset String))).get? 0).getD "")
           ∅)) ∧
    (getRandomWord usedAllWords 0 = ((WORD_LIST.get? (0 % WORD_LIST.length)).getD "", ∅)) ∧
    getRandomWord ∅ 0 = ("Queen", insert "Queen" ∅) :=
  ⟨(word_selection_no_early_repeat.1 ∅ 0 (by decide)).1,
   word_selection_no_early_repeat.2.2.1 usedAllWords 0 (by decide), by decide⟩

/-- C10: when the used set covers the catalog, the call clears the set and
returns a catalog word *without* recording it — so with the used set full,
drawing with indices `[0, 0]` returns "Queen" twice in a row (an immediate
back-to-back repeat across the exhaustion boundary). -/
theorem exhaustion_clears_used_and_allows_repeat :
    (∀ w ∈ WORD_LIST, w ∈ usedAllWords) ∧
    (getRandomWord usedAllWords 0).2 = ∅ ∧
    (getRandomWord usedAllWords 0).1 = "Queen" ∧
    runDraws usedAllWords [0, 0] = ["Queen", "Queen"] := by
  decide

end Purim
